import Mathlib

/-!
Shallow embedding of the core services of the `currency_exchange` repository
(`app/services/rate_service.py`, `app/services/conversion_service.py`,
`app/services/transaction_service.py`), together with theorems settling the
spec claims about them.

Modelling conventions:
* Python `Decimal` values are modelled as exact rationals (`ℚ`); `Decimal`
  division by zero raises, which is modelled by an explicit error value.
* Instants (`datetime`) are modelled as integers (`ℤ`).
* The mutable world (the in-memory cache, the `exchange_rates` backup table,
  the `transactions` table and the provider-call counter) is explicit state
  threaded through each operation.
* The external provider's single fetch attempt is modelled by an
  `Option Rates` input: `some r` means the fetch would succeed with rates `r`,
  `none` means it would raise.
* The database is modelled as reliable in-order storage: a `SELECT ... ORDER
  BY <key> DESC` is a stable descending sort of the insertion-ordered rows,
  and row ids are assigned consecutively.
-/

namespace CurrencyExchange

/-- `settings.SUPPORTED_CURRENCIES` from `app/core/config.py`. -/
def SUPPORTED_CURRENCIES : List String := ["USD", "EUR", "JPY", "BRL"]

/-- `settings.EXCHANGE_RATE_BASE_CURRENCY` from `app/core/config.py`. -/
def EXCHANGE_RATE_BASE_CURRENCY : String := "EUR"

/-- `settings.EXCHANGE_RATE_CACHE_TTL` from `app/core/config.py` (seconds). -/
def EXCHANGE_RATE_CACHE_TTL : ℤ := 3600

/-- Python `Decimal`, modelled as an exact rational. -/
abbrev Decimal := ℚ

/-- A rates mapping (`Dict[str, Decimal]`), as an association list with the
provider's key order. -/
abbrev Rates := List (String × Decimal)

/-- The exceptions that can escape the embedded services: the repo's own
taxonomy (`app/core/exceptions.py`) plus the raw Python errors that unguarded
dict indexing and `Decimal` division can raise. -/
inductive PyError where
  | invalidCurrency (code : String)
  | invalidAmount
  | externalAPI
  | userNotFound (user_id : String)
  | keyError (key : String)
  | divisionByZero
  deriving DecidableEq, Repr

/-- Python dict indexing `rates[k]`: the value, or a `KeyError`. -/
def ratesGet (rates : Rates) (k : String) : Except PyError Decimal :=
  match rates.lookup k with
  | some v => Except.ok v
  | none => Except.error (PyError.keyError k)

/-- `Decimal` division: raises `DivisionByZero` on a zero divisor. -/
def decDiv (x y : Decimal) : Except PyError Decimal :=
  if y = 0 then Except.error PyError.divisionByZero else Except.ok (x / y)

/-- One entry of `RateService.cache` (`{"rates": ..., "expires_at": ...}`). -/
structure CacheEntry where
  rates : Rates
  expires_at : ℤ
  deriving DecidableEq, Repr

/-- One row of the `exchange_rates` backup table
(`app/models/models.py::ExchangeRate`); the string-encoded rates round-trip
through `str`/`Decimal` losslessly, so they are kept as `Decimal`s. -/
structure ExchangeRate where
  base_currency : String
  rates : Rates
  last_updated : ℤ
  deriving DecidableEq, Repr

/-- The mutable state touched by `RateService`: the in-memory cache (keyed by
the single base currency, hence an `Option`), the backup table in insertion
order, and a counter of provider fetch attempts (for "no network call"
claims). -/
structure RateState where
  cache : Option CacheEntry
  backups : List ExchangeRate
  fetchCount : ℕ
  deriving DecidableEq, Repr

/-- Stable insert for a descending sort by an integer key: the new element
goes before the first existing element whose key is `≤` its own, so earlier
rows stay ahead of later rows with the same key. -/
def insertByDesc (key : α → ℤ) (x : α) : List α → List α
  | [] => [x]
  | y :: ys => if key y ≤ key x then x :: y :: ys else y :: insertByDesc key x ys

/-- Stable descending sort by an integer key, modelling
`ORDER BY <key> DESC` over insertion-ordered rows. -/
def sortByDesc (key : α → ℤ) : List α → List α
  | [] => []
  | x :: xs => insertByDesc key x (sortByDesc key xs)

/-- `RateService._get_rates_from_db`: the most recent backup row for the base
currency, or `None`. -/
def getRatesFromDb (backups : List ExchangeRate) : Option Rates :=
  match (sortByDesc ExchangeRate.last_updated
      (backups.filter (fun r => r.base_currency = EXCHANGE_RATE_BASE_CURRENCY))).head? with
  | some row => some row.rates
  | none => none

/-- The `try` body and `except` handler of `RateService._get_rates` once the
fresh-cache fast path has been passed: attempt the single provider fetch; on
success replace the cache entry (expiry `now + TTL`), append one backup row
(`_save_rates_to_db`) and return the fresh rates; on failure fall back to the
cache entry even if expired, then to the most recent backup row (skipped when
its rates dict is empty, since `if db_rates:` is false for `{}`), else raise
`ExternalAPIException`. -/
def tryFetch (st : RateState) (now : ℤ) (fetchResult : Option Rates) :
    Except PyError Rates × RateState :=
  match fetchResult with
  | some rates =>
      (Except.ok rates,
        { cache := some { rates := rates, expires_at := now + EXCHANGE_RATE_CACHE_TTL },
          backups := st.backups ++
            [{ base_currency := EXCHANGE_RATE_BASE_CURRENCY, rates := rates,
               last_updated := now }],
          fetchCount := st.fetchCount + 1 })
  | none =>
      let st' : RateState := { st with fetchCount := st.fetchCount + 1 }
      match st.cache with
      | some entry => (Except.ok entry.rates, st')
      | none =>
          match getRatesFromDb st.backups with
          | some db_rates =>
              if db_rates.isEmpty then (Except.error PyError.externalAPI, st')
              else (Except.ok db_rates, st')
          | none => (Except.error PyError.externalAPI, st')

/-- `RateService._get_rates`: fresh cache hit returns the cached rates
unchanged; otherwise the fetch/fallback chain `tryFetch` runs. -/
def getRates (st : RateState) (now : ℤ) (fetchResult : Option Rates) :
    Except PyError Rates × RateState :=
  match st.cache with
  | some entry =>
      if now < entry.expires_at then (Except.ok entry.rates, st)
      else tryFetch st now fetchResult
  | none => tryFetch st now fetchResult

/-- The pairwise-rate derivation at the end of
`RateService.get_exchange_rate`, applied to resolved rates: left operands are
evaluated first, as in Python, so a missing `to_currency` key raises before a
missing `from_currency` key in the cross-rate case. -/
def deriveRate (rates : Rates) (from_currency to_currency : String) :
    Except PyError Decimal :=
  if from_currency = EXCHANGE_RATE_BASE_CURRENCY then
    ratesGet rates to_currency
  else if to_currency = EXCHANGE_RATE_BASE_CURRENCY then
    match ratesGet rates from_currency with
    | Except.ok rf => decDiv 1 rf
    | Except.error e => Except.error e
  else
    match ratesGet rates to_currency with
    | Except.ok rt =>
        match ratesGet rates from_currency with
        | Except.ok rf => decDiv rt rf
        | Except.error e => Except.error e
    | Except.error e => Except.error e

/-- `RateService.get_exchange_rate`: validate both codes (source order:
`from_currency` first), resolve rates via `_get_rates`, then derive the
pairwise rate. -/
def get_exchange_rate (st : RateState) (now : ℤ) (fetchResult : Option Rates)
    (from_currency to_currency : String) : Except PyError Decimal × RateState :=
  if from_currency ∉ SUPPORTED_CURRENCIES then
    (Except.error (PyError.invalidCurrency from_currency), st)
  else if to_currency ∉ SUPPORTED_CURRENCIES then
    (Except.error (PyError.invalidCurrency to_currency), st)
  else
    match getRates st now fetchResult with
    | (Except.ok rates, st') => (deriveRate rates from_currency to_currency, st')
    | (Except.error e, st') => (Except.error e, st')

/-- One row of the `transactions` table (`app/models/models.py::Transaction`);
`id` is assigned by the store. -/
structure Transaction where
  id : ℕ
  user_id : String
  source_currency : String
  target_currency : String
  source_amount : Decimal
  target_amount : Decimal
  exchange_rate : Decimal
  timestamp : ℤ
  deriving DecidableEq, Repr

/-- The state touched by `ConversionService.convert_currency`: the rate
service's state plus the `transactions` table in insertion order. -/
structure ConvState where
  rateState : RateState
  transactions : List Transaction
  deriving DecidableEq, Repr

/-- The dict returned by `ConversionService.convert_currency`. -/
structure ConversionResult where
  transaction_id : ℕ
  user_id : String
  from_currency : String
  from_amount : Decimal
  to_currency : String
  to_amount : Decimal
  rate : Decimal
  timestamp : ℤ
  deriving DecidableEq, Repr

/-- `ConversionService.convert_currency`: reject non-positive amounts before
any other action, obtain the pairwise rate (threading the rate service's
state), compute `amount * rate`, persist one transaction row (the store
assigns `id = row count + 1`) and return the result dict built from that
row. -/
def convert_currency (st : ConvState) (now : ℤ) (fetchResult : Option Rates)
    (user_id from_currency to_currency : String) (amount : Decimal) :
    Except PyError ConversionResult × ConvState :=
  if amount ≤ 0 then (Except.error PyError.invalidAmount, st)
  else
    match get_exchange_rate st.rateState now fetchResult from_currency to_currency with
    | (Except.error e, rs') => (Except.error e, { st with rateState := rs' })
    | (Except.ok exchange_rate, rs') =>
        let converted_amount := amount * exchange_rate
        let tx : Transaction :=
          { id := st.transactions.length + 1, user_id := user_id,
            source_currency := from_currency, target_currency := to_currency,
            source_amount := amount, target_amount := converted_amount,
            exchange_rate := exchange_rate, timestamp := now }
        (Except.ok
          { transaction_id := tx.id, user_id := user_id,
            from_currency := from_currency, from_amount := amount,
            to_currency := to_currency, to_amount := converted_amount,
            rate := exchange_rate, timestamp := tx.timestamp },
          { rateState := rs', transactions := st.transactions ++ [tx] })

/-- The dict built by `TransactionService._format_transaction`. -/
structure FormattedTransaction where
  transaction_id : ℕ
  from_currency : String
  from_amount : Decimal
  to_currency : String
  to_amount : Decimal
  rate : Decimal
  timestamp : ℤ
  deriving DecidableEq, Repr

/-- `TransactionService._format_transaction`. -/
def format_transaction (t : Transaction) : FormattedTransaction :=
  { transaction_id := t.id, from_currency := t.source_currency,
    from_amount := t.source_amount, to_currency := t.target_currency,
    to_amount := t.target_amount, rate := t.exchange_rate,
    timestamp := t.timestamp }

/-- The dict returned by `TransactionService.get_user_transactions`. -/
structure TransactionHistory where
  user_id : String
  transactions : List FormattedTransaction
  count : ℕ
  total : ℕ
  deriving DecidableEq, Repr

/-- The row filter built by `TransactionService.get_user_transactions`: exact
`user_id` match plus inclusive date bounds when supplied (`if from_date:` /
`if to_date:` — a datetime is always truthy, so `Option` is exact). -/
def matchesQuery (user_id : String) (from_date to_date : Option ℤ)
    (t : Transaction) : Bool :=
  t.user_id = user_id &&
    (match from_date with | some d => d ≤ t.timestamp | none => true) &&
    (match to_date with | some d => t.timestamp ≤ d | none => true)

/-- The pagination applied by `TransactionService.get_user_transactions`:
`.limit`/`.offset` render as `LIMIT l OFFSET o`, which drops `o` rows then
takes `l`; `if limit:` and `if offset:` skip the clause for `None` and for a
falsy `0`. -/
def applyPagination (limit offset : Option ℕ) (rows : List Transaction) :
    List Transaction :=
  let afterOffset :=
    match offset with
    | some o => if o = 0 then rows else rows.drop o
    | none => rows
  match limit with
  | some l => if l = 0 then afterOffset else afterOffset.take l
  | none => afterOffset

/-- `TransactionService.get_user_transactions`: filter by user and dates,
raise `UserNotFoundException` when no row matches, otherwise sort by
timestamp descending (stable over insertion order), paginate, format, and
report `count` (rows returned) and `total` (matches before pagination). -/
def get_user_transactions (store : List Transaction) (user_id : String)
    (limit offset : Option ℕ) (from_date to_date : Option ℤ) :
    Except PyError TransactionHistory :=
  let matching := store.filter (matchesQuery user_id from_date to_date)
  let total := matching.length
  if total = 0 then Except.error (PyError.userNotFound user_id)
  else
    let page := applyPagination limit offset (sortByDesc Transaction.timestamp matching)
    let formatted := page.map format_transaction
    Except.ok
      { user_id := user_id, transactions := formatted,
        count := formatted.length, total := total }

/-- The rates snapshot of the repository's test fixture
(`tests/conftest.py::mock_rates_response`): base EUR,
`{USD: 1.18, JPY: 129.55, BRL: 6.35, EUR: 1.0}`. -/
def mock_rates : Rates := [("USD", 1.18), ("JPY", 129.55), ("BRL", 6.35), ("EUR", 1)]

/-- A concrete transaction row used to evaluate the theorems. -/
def sampleTx (i : ℕ) (uid : String) (ts : ℤ) : Transaction :=
  { id := i, user_id := uid, source_currency := "USD", target_currency := "EUR",
    source_amount := 10, target_amount := 8, exchange_rate := 4/5, timestamp := ts }

/-! ### Lemmas about the stable descending sort -/

theorem insertByDesc_perm (key : α → ℤ) (x : α) (l : List α) :
    (insertByDesc key x l).Perm (x :: l) := by
  induction l with
  | nil => simp [insertByDesc]
  | cons y ys ih =>
      by_cases h : key y ≤ key x
      · simp [insertByDesc, h]
      · simp only [insertByDesc, if_neg h]
        exact (ih.cons y).trans (List.Perm.swap x y ys)

theorem sortByDesc_perm (key : α → ℤ) (l : List α) :
    (sortByDesc key l).Perm l := by
  induction l with
  | nil => simp [sortByDesc]
  | cons x xs ih =>
      exact (insertByDesc_perm key x (sortByDesc key xs)).trans (ih.cons x)

theorem insertByDesc_pairwise (key : α → ℤ) (x : α) (l : List α)
    (h : l.Pairwise (fun a b => key b ≤ key a)) :
    (insertByDesc key x l).Pairwise (fun a b => key b ≤ key a) := by
  induction l with
  | nil => simp [insertByDesc]
  | cons y ys ih =>
      rcases List.pairwise_cons.mp h with ⟨hy, hys⟩
      by_cases hxy : key y ≤ key x
      · simp only [insertByDesc, if_pos hxy]
        refine List.pairwise_cons.mpr ⟨?_, h⟩
        intro z hz
        rcases List.mem_cons.mp hz with hz1 | hz1
        · subst hz1; exact hxy
        · exact (hy z hz1).trans hxy
      · simp only [insertByDesc, if_neg hxy]
        refine List.pairwise_cons.mpr ⟨?_, ih hys⟩
        intro z hz
        have hz' := ((insertByDesc_perm key x ys).mem_iff).mp hz
        rcases List.mem_cons.mp hz' with hz1 | hz1
        · subst hz1
          exact le_of_lt (lt_of_not_le hxy)
        · exact hy z hz1

theorem sortByDesc_pairwise (key : α → ℤ) (l : List α) :
    (sortByDesc key l).Pairwise (fun a b => key b ≤ key a) := by
  induction l with
  | nil => simp [sortByDesc]
  | cons x xs ih => exact insertByDesc_pairwise key x (sortByDesc key xs) ih

theorem insertByDesc_filter_key (key : α → ℤ) (x : α) (l : List α) (v : ℤ) :
    (insertByDesc key x l).filter (fun y => decide (key y = v)) =
      (x :: l).filter (fun y => decide (key y = v)) := by
  induction l with
  | nil => rfl
  | cons y ys ih =>
      by_cases hxy : key y ≤ key x
      · simp [insertByDesc, if_pos hxy]
      · have hlt : key x < key y := lt_of_not_le hxy
        rw [insertByDesc, if_neg hxy]
        by_cases hy : key y = v
        · have hx : ¬ key x = v := by omega
          simp [List.filter_cons, hy, hx, ih]
        · simp [List.filter_cons, hy, ih]

/-- Stability: the sort never reorders rows with equal keys, so ties keep
insertion order. -/
theorem sortByDesc_filter_key (key : α → ℤ) (l : List α) (v : ℤ) :
    (sortByDesc key l).filter (fun y => decide (key y = v)) =
      l.filter (fun y => decide (key y = v)) := by
  induction l with
  | nil => rfl
  | cons x xs ih =>
      calc (sortByDesc key (x :: xs)).filter (fun y => decide (key y = v))
          = ((x :: sortByDesc key xs).filter (fun y => decide (key y = v))) :=
            insertByDesc_filter_key key x (sortByDesc key xs) v
        _ = (x :: xs).filter (fun y => decide (key y = v)) := by
            by_cases hx : key x = v <;> simp [List.filter, hx, ih]

/-- The head of the sorted-descending list is a row with a maximal key. -/
theorem sortByDesc_head_max (key : α → ℤ) (l : List α) (x : α)
    (hx : (sortByDesc key l).head? = some x) :
    x ∈ l ∧ ∀ y ∈ l, key y ≤ key x := by
  rcases hl : sortByDesc key l with - | ⟨z, zs⟩
  · rw [hl] at hx; cases hx
  · rw [hl] at hx
    simp only [List.head?] at hx
    cases hx
    have hperm := sortByDesc_perm key l
    rw [hl] at hperm
    constructor
    · exact hperm.mem_iff.mp (List.mem_cons_self x zs)
    · intro y hy
      rcases List.mem_cons.mp (hperm.mem_iff.mpr hy) with hy1 | hy1
      · subst hy1; exact le_refl _
      · have hp := sortByDesc_pairwise key l
        rw [hl] at hp
        exact (List.pairwise_cons.mp hp).1 y hy1

/-! ### Claim theorems -/

/-- C2: `RateService.get_exchange_rate` has no `from == to` short-circuit,
contrary to the spec and to the repository's own test
(`test_get_exchange_rate_same_currency`, which calls the service without any
API mock, asserts rate 1 and comments that the API "won't be called").
Evaluating the code at the failing input: with an empty cache, an empty backup
store and a failing provider, `get_exchange_rate("EUR", "EUR")` raises
`ExternalAPIException` instead of returning 1; and even with a succeeding
provider, one provider fetch (a network call) is performed and the cache and
backup store are mutated. -/
theorem get_exchange_rate_same_currency_no_shortcircuit :
    get_exchange_rate ⟨none, [], 0⟩ 0 none "EUR" "EUR"
        = (Except.error PyError.externalAPI, ⟨none, [], 1⟩) ∧
    (get_exchange_rate ⟨none, [], 0⟩ 0 (some mock_rates) "EUR" "EUR").2.fetchCount = 1 := by
  constructor
  · simp [get_exchange_rate, getRates, tryFetch, getRatesFromDb, sortByDesc,
      SUPPORTED_CURRENCIES]
  · simp [get_exchange_rate, getRates, tryFetch, SUPPORTED_CURRENCIES]

/-- C3: pairwise-rate derivation from a resolved snapshot with base currency
B = EUR, for a supported pair with `from ≠ to` whose rates are present (and
the from-rate nonzero, as the code divides by it): if `from = B` the rate is
`snapshot[to]`; if `to = B` it is `1 / snapshot[from]`; otherwise it is
`snapshot[to] / snapshot[from]`. -/
theorem deriveRate_pairwise_cases (rates : Rates) (from_currency to_currency : String)
    (rf rt : Decimal)
    (_hfs : from_currency ∈ SUPPORTED_CURRENCIES)
    (_hts : to_currency ∈ SUPPORTED_CURRENCIES)
    (hne : from_currency ≠ to_currency)
    (hf : rates.lookup from_currency = some rf) (ht : rates.lookup to_currency = some rt)
    (hrf : rf ≠ 0) :
    (from_currency = EXCHANGE_RATE_BASE_CURRENCY →
        deriveRate rates from_currency to_currency = Except.ok rt) ∧
    (to_currency = EXCHANGE_RATE_BASE_CURRENCY →
        deriveRate rates from_currency to_currency = Except.ok (1 / rf)) ∧
    (from_currency ≠ EXCHANGE_RATE_BASE_CURRENCY →
      to_currency ≠ EXCHANGE_RATE_BASE_CURRENCY →
        deriveRate rates from_currency to_currency = Except.ok (rt / rf)) := by
  refine ⟨?_, ?_, ?_⟩
  · intro hb
    simp [deriveRate, hb, ratesGet, ht]
  · intro hb
    have hfb : ¬ from_currency = EXCHANGE_RATE_BASE_CURRENCY := by
      rw [← hb]; exact hne
    simp [deriveRate, hfb, hb, ratesGet, hf, decDiv, hrf]
  · intro h1 h2
    simp [deriveRate, h1, h2, ratesGet, ht, hf, decDiv, hrf]

/-- Witness for C3 at the spec's scenario: snapshot `mock_rates`, pair
USD → EUR, so the rate is `1 / 1.18`. -/
theorem deriveRate_pairwise_cases_witness :
    ("USD" = EXCHANGE_RATE_BASE_CURRENCY →
        deriveRate mock_rates "USD" "EUR" = Except.ok 1) ∧
    ("EUR" = EXCHANGE_RATE_BASE_CURRENCY →
        deriveRate mock_rates "USD" "EUR" = Except.ok (1 / 1.18)) ∧
    ("USD" ≠ EXCHANGE_RATE_BASE_CURRENCY → "EUR" ≠ EXCHANGE_RATE_BASE_CURRENCY →
        deriveRate mock_rates "USD" "EUR" = Except.ok (1 / 1.18)) :=
  deriveRate_pairwise_cases mock_rates "USD" "EUR" 1.18 1
    (by simp [SUPPORTED_CURRENCIES]) (by simp [SUPPORTED_CURRENCIES])
    (by simp) (by simp [mock_rates, List.lookup]) (by simp [mock_rates, List.lookup])
    (by norm_num)

/-- C5: `TransactionService.get_user_transactions` fails, and fails with
`UserNotFoundException`, exactly when zero stored rows match the `user_id`
and date filters — including when the user has rows but all fall outside the
requested date range; no rows are returned in that case. -/
theorem get_user_transactions_userNotFound_iff (store : List Transaction)
    (user_id : String) (limit offset : Option ℕ) (from_date to_date : Option ℤ) :
    (get_user_transactions store user_id limit offset from_date to_date
        = Except.error (PyError.userNotFound user_id)
      ↔ store.filter (matchesQuery user_id from_date to_date) = []) ∧
    (∀ e, get_user_transactions store user_id limit offset from_date to_date
        = Except.error e → e = PyError.userNotFound user_id) := by
  by_cases hz : (store.filter (matchesQuery user_id from_date to_date)).length = 0
  · have he : store.filter (matchesQuery user_id from_date to_date) = [] :=
      List.length_eq_zero.mp hz
    refine ⟨⟨fun _ => he, fun _ => ?_⟩, fun e hec => ?_⟩
    · simp [get_user_transactions, hz]
    · simp [get_user_transactions, hz] at hec
      exact hec.symm
  · refine ⟨⟨fun hc => ?_, fun he => ?_⟩, fun e hec => ?_⟩
    · simp [get_user_transactions, hz] at hc
    · exact absurd (he ▸ List.length_nil) hz
    · simp [get_user_transactions, hz] at hec

/-- Witness for C5: `user_A` has one row at timestamp 100, but the requested
range starts at 500, so the call fails with `UserNotFound`. -/
theorem get_user_transactions_userNotFound_iff_witness :
    get_user_transactions [sampleTx 1 "user_A" 100] "user_A" none none (some 500) none
      = Except.error (PyError.userNotFound "user_A") :=
  (get_user_transactions_userNotFound_iff [sampleTx 1 "user_A" 100] "user_A"
      none none (some 500) none).1.mpr
    (by simp [matchesQuery, sampleTx])

/-- C6: `ConversionService.convert_currency` rejects a non-positive amount
with `InvalidAmountException` before resolving any rate, so the whole state
(cache, backup store, fetch counter and transactions table) is returned
unchanged. -/
theorem convert_currency_nonpositive_amount (st : ConvState) (now : ℤ)
    (fetchResult : Option Rates) (user_id from_currency to_currency : String)
    (amount : Decimal) (h : amount ≤ 0) :
    convert_currency st now fetchResult user_id from_currency to_currency amount
      = (Except.error PyError.invalidAmount, st) := by
  simp [convert_currency, h]

/-- Witness for C6 at the spec's scenario `convert(amount = -5)`: fails
`InvalidAmount` and no transaction is persisted. -/
theorem convert_currency_nonpositive_amount_witness :
    convert_currency ⟨⟨none, [], 0⟩, []⟩ 0 (some mock_rates) "user_A" "USD" "EUR" (-5)
      = (Except.error PyError.invalidAmount, ⟨⟨none, [], 0⟩, []⟩) :=
  convert_currency_nonpositive_amount ⟨⟨none, [], 0⟩, []⟩ 0 (some mock_rates)
    "user_A" "USD" "EUR" (-5) (by norm_num)

/-- C1 counterexample: step (d) of the claimed acquisition order fails as
stated. With no cache entry, a failing fetch, and a most recent backup row
for the base currency that carries an empty rates mapping, the row exists
(`getRatesFromDb` finds it) yet `_get_rates` raises `ExternalAPIException`
instead of returning it, because `if db_rates:` is false for an empty dict. -/
theorem getRates_empty_backup_row_not_returned :
    getRatesFromDb [⟨"EUR", [], 5⟩] = some [] ∧
    getRates ⟨none, [⟨"EUR", [], 5⟩], 0⟩ 200 none
      = (Except.error PyError.externalAPI, ⟨none, [⟨"EUR", [], 5⟩], 1⟩) := by
  constructor
  · simp [getRatesFromDb, sortByDesc, insertByDesc]
  · simp [getRates, tryFetch, getRatesFromDb, sortByDesc, insertByDesc]

/-- C1 (amended): the snapshot acquisition order of `RateService._get_rates`.
(a) a cache entry with `now < expires_at` is returned as-is; (b) otherwise a
single provider fetch is attempted and on success the cache entry is replaced
with expiry `now + TTL`, exactly one backup row is appended, and the fresh
rates are returned; (c) on fetch failure the cache entry is returned even
when expired; (d) with no cache entry, the most recent backup row for the
base currency is returned provided its rates mapping is non-empty (an
empty mapping is skipped, as `if db_rates:` is false for `{}`); (e) with
nothing left, the call fails with `ExternalAPIException`. -/
theorem getRates_acquisition_order (cache : Option CacheEntry)
    (backups : List ExchangeRate) (n : ℕ) (now : ℤ) (fetchResult : Option Rates) :
    (∀ e, cache = some e → now < e.expires_at →
       getRates ⟨cache, backups, n⟩ now fetchResult
         = (Except.ok e.rates, ⟨cache, backups, n⟩)) ∧
    (∀ r, fetchResult = some r →
       (cache = none ∨ ∃ e, cache = some e ∧ ¬ now < e.expires_at) →
       getRates ⟨cache, backups, n⟩ now fetchResult
         = (Except.ok r, ⟨some ⟨r, now + EXCHANGE_RATE_CACHE_TTL⟩,
              backups ++ [⟨EXCHANGE_RATE_BASE_CURRENCY, r, now⟩], n + 1⟩)) ∧
    (∀ e, cache = some e → ¬ now < e.expires_at → fetchResult = none →
       getRates ⟨cache, backups, n⟩ now fetchResult
         = (Except.ok e.rates, ⟨cache, backups, n + 1⟩)) ∧
    (∀ r, cache = none → fetchResult = none → getRatesFromDb backups = some r →
       r ≠ [] →
       getRates ⟨cache, backups, n⟩ now fetchResult
         = (Except.ok r, ⟨none, backups, n + 1⟩)) ∧
    (∀ r, getRatesFromDb backups = some r →
       ∃ row ∈ backups, row.base_currency = EXCHANGE_RATE_BASE_CURRENCY ∧
         row.rates = r ∧
         ∀ row' ∈ backups, row'.base_currency = EXCHANGE_RATE_BASE_CURRENCY →
           row'.last_updated ≤ row.last_updated) ∧
    (cache = none → fetchResult = none →
       (getRatesFromDb backups = none ∨ getRatesFromDb backups = some []) →
       getRates ⟨cache, backups, n⟩ now fetchResult
         = (Except.error PyError.externalAPI, ⟨none, backups, n + 1⟩)) := by
  refine ⟨?_, ?_, ?_, ?_, ?_, ?_⟩
  · intro e hc hfresh
    subst hc
    simp [getRates, hfresh]
  · intro r hr hc
    subst hr
    rcases hc with hc | ⟨e, hc, hstale⟩
    · subst hc; simp [getRates, tryFetch]
    · subst hc; simp [getRates, hstale, tryFetch]
  · intro e hc hstale hf
    subst hc; subst hf
    simp [getRates, hstale, tryFetch]
  · intro r hc hf hdb hne
    subst hc; subst hf
    simp [getRates, tryFetch, hdb, List.isEmpty_iff, hne]
  · intro r hdb
    unfold getRatesFromDb at hdb
    rcases hh : (sortByDesc ExchangeRate.last_updated
        (backups.filter
          (fun row => row.base_currency = EXCHANGE_RATE_BASE_CURRENCY))).head? with - | row
    · rw [hh] at hdb; cases hdb
    · rw [hh] at hdb
      obtain ⟨hmem, hmax⟩ := sortByDesc_head_max _ _ _ hh
      have hmem' := List.mem_filter.mp hmem
      refine ⟨row, hmem'.1, of_decide_eq_true hmem'.2, ?_, ?_⟩
      · exact Option.some.inj hdb
      · intro row' hrow' hbase'
        exact hmax row' (List.mem_filter.mpr ⟨hrow', decide_eq_true hbase'⟩)
  · intro hc hf hdb
    subst hc; subst hf
    rcases hdb with hdb | hdb
    · simp [getRates, tryFetch, hdb]
    · simp [getRates, tryFetch, hdb]

/-- Witness for C1: a fresh cache entry (expiry 100, now 50) is returned
as-is, and a failing fetch with no cache and no backups fails with
`ExternalAPIException`. -/
theorem getRates_acquisition_order_witness :
    getRates ⟨some ⟨mock_rates, 100⟩, [], 0⟩ 50 none
        = (Except.ok mock_rates, ⟨some ⟨mock_rates, 100⟩, [], 0⟩) ∧
    getRates ⟨none, [], 0⟩ 50 none
        = (Except.error PyError.externalAPI, ⟨none, [], 1⟩) :=
  ⟨(getRates_acquisition_order (some ⟨mock_rates, 100⟩) [] 0 50 none).1
      ⟨mock_rates, 100⟩ rfl (by norm_num),
   (getRates_acquisition_order none [] 0 50 none).2.2.2.2.2 rfl rfl
      (Or.inl (by simp [getRatesFromDb, sortByDesc]))⟩

/-- C8: the only mutation of snapshot acquisition is the one performed by a
successful provider fetch — the cache entry is replaced and exactly one row
is appended to the backup store; on every other path (fresh cache hit,
expired-cache fallback, backup-store fallback, final failure) both the cache
and the backup store are left untouched. -/
theorem getRates_side_effects (cache : Option CacheEntry)
    (backups : List ExchangeRate) (n : ℕ) (now : ℤ) (fetchResult : Option Rates) :
    (∀ r, fetchResult = some r →
       (cache = none ∨ ∃ e, cache = some e ∧ ¬ now < e.expires_at) →
       (getRates ⟨cache, backups, n⟩ now fetchResult).2.cache
           = some ⟨r, now + EXCHANGE_RATE_CACHE_TTL⟩ ∧
       (getRates ⟨cache, backups, n⟩ now fetchResult).2.backups
           = backups ++ [⟨EXCHANGE_RATE_BASE_CURRENCY, r, now⟩]) ∧
    ((fetchResult = none ∨ ∃ e, cache = some e ∧ now < e.expires_at) →
       (getRates ⟨cache, backups, n⟩ now fetchResult).2.cache = cache ∧
       (getRates ⟨cache, backups, n⟩ now fetchResult).2.backups = backups) := by
  constructor
  · intro r hr hc
    subst hr
    rcases hc with hc | ⟨e, hc, hstale⟩
    · subst hc; simp [getRates, tryFetch]
    · subst hc; simp [getRates, hstale, tryFetch]
  · intro hc
    rcases hc with hc | ⟨e, hc, hfresh⟩
    · subst hc
      rcases cache with - | e
      · simp only [getRates, tryFetch]
        rcases getRatesFromDb backups with - | r
        · simp
        · by_cases he : r.isEmpty <;> simp [he]
      · by_cases hfresh : now < e.expires_at
        · simp [getRates, hfresh]
        · simp [getRates, hfresh, tryFetch]
    · subst hc
      simp [getRates, hfresh]

/-- Witness for C8: a successful fetch from an empty state replaces the
cache and appends exactly one backup row. -/
theorem getRates_side_effects_witness :
    (getRates ⟨none, [], 0⟩ 50 (some mock_rates)).2.cache
        = some ⟨mock_rates, 50 + EXCHANGE_RATE_CACHE_TTL⟩ ∧
    (getRates ⟨none, [], 0⟩ 50 (some mock_rates)).2.backups
        = [] ++ [⟨EXCHANGE_RATE_BASE_CURRENCY, mock_rates, 50⟩] :=
  (getRates_side_effects none [] 0 50 (some mock_rates)).1 mock_rates rfl (Or.inl rfl)

/-- C4: `TransactionService.get_user_transactions` with `limit = l > 0` and
`offset = o` returns exactly the matching rows sorted by timestamp
descending — a sort that is a permutation of the matching rows, never
reorders rows with equal timestamps (ties keep insertion order) — sliced at
`[o : o + l]`; `total` is the number of matching rows before pagination and
`count` the number of rows returned, which never exceeds `total`. -/
theorem get_user_transactions_ordering_pagination (store : List Transaction)
    (user_id : String) (l o : ℕ) (from_date to_date : Option ℤ)
    (h : TransactionHistory) (hl : 0 < l)
    (hres : get_user_transactions store user_id (some l) (some o) from_date to_date
      = Except.ok h) :
    h.transactions
        = (((sortByDesc Transaction.timestamp
              (store.filter (matchesQuery user_id from_date to_date))).drop o).take l).map
            format_transaction ∧
    (sortByDesc Transaction.timestamp
        (store.filter (matchesQuery user_id from_date to_date))).Pairwise
      (fun a b => b.timestamp ≤ a.timestamp) ∧
    (sortByDesc Transaction.timestamp
        (store.filter (matchesQuery user_id from_date to_date))).Perm
      (store.filter (matchesQuery user_id from_date to_date)) ∧
    (∀ v : ℤ,
       (sortByDesc Transaction.timestamp
           (store.filter (matchesQuery user_id from_date to_date))).filter
         (fun t => decide (t.timestamp = v))
         = (store.filter (matchesQuery user_id from_date to_date)).filter
             (fun t => decide (t.timestamp = v))) ∧
    h.total = (store.filter (matchesQuery user_id from_date to_date)).length ∧
    h.count = h.transactions.length ∧
    h.count ≤ h.total := by
  set ms := store.filter (matchesQuery user_id from_date to_date) with hms
  set srt := sortByDesc Transaction.timestamp ms with hsrt
  by_cases hz : ms.length = 0
  · simp [get_user_transactions, ← hms, hz] at hres
  · have hpage : applyPagination (some l) (some o) srt = (srt.drop o).take l := by
      by_cases ho : o = 0
      · simp [applyPagination, ho, hl.ne']
      · simp [applyPagination, ho, hl.ne']
    have hlen : srt.length = ms.length :=
      (hsrt ▸ sortByDesc_perm Transaction.timestamp ms).length_eq
    have hh :
        h = { user_id := user_id,
              transactions := ((srt.map format_transaction).drop o).take l,
              count := l ⊓ (srt.length - o),
              total := ms.length } := by
      simp [get_user_transactions, ← hms, hz, ← hsrt, hpage] at hres
      exact hres.symm
    subst hh
    refine ⟨by simp [List.map_take, List.map_drop], hsrt ▸ sortByDesc_pairwise _ _,
      hsrt ▸ sortByDesc_perm _ _, fun v => hsrt ▸ sortByDesc_filter_key _ _ v, rfl,
      by simp [List.length_take, List.length_drop, List.length_map], ?_⟩
    simp only
    omega

/-- Witness for C4: four stored rows, three of them for `user_A` with
timestamps 100, 300, 200; with `limit = 2`, `offset = 1` the query returns
the sorted window `[timestamp 200, timestamp 100]`, with `total = 3` and
`count = 2`. -/
theorem get_user_transactions_ordering_pagination_witness :
    (get_user_transactions
          [sampleTx 1 "user_A" 100, sampleTx 2 "user_A" 300,
           sampleTx 3 "user_A" 200, sampleTx 4 "user_B" 400]
          "user_A" (some 2) (some 1) none none
        = Except.ok
            { user_id := "user_A",
              transactions :=
                [format_transaction (sampleTx 3 "user_A" 200),
                 format_transaction (sampleTx 1 "user_A" 100)],
              count := 2, total := 3 }) ∧
    [format_transaction (sampleTx 3 "user_A" 200),
        format_transaction (sampleTx 1 "user_A" 100)]
      = (((sortByDesc Transaction.timestamp
            ([sampleTx 1 "user_A" 100, sampleTx 2 "user_A" 300,
              sampleTx 3 "user_A" 200, sampleTx 4 "user_B" 400].filter
              (matchesQuery "user_A" none none))).drop 1).take 2).map
          format_transaction := by
  have hres : get_user_transactions
      [sampleTx 1 "user_A" 100, sampleTx 2 "user_A" 300,
       sampleTx 3 "user_A" 200, sampleTx 4 "user_B" 400]
      "user_A" (some 2) (some 1) none none
      = Except.ok
          { user_id := "user_A",
            transactions :=
              [format_transaction (sampleTx 3 "user_A" 200),
               format_transaction (sampleTx 1 "user_A" 100)],
            count := 2, total := 3 } := by
    simp [get_user_transactions, matchesQuery, sampleTx, sortByDesc, insertByDesc,
      applyPagination, List.filter]
  refine ⟨hres, ?_⟩
  have hmain := get_user_transactions_ordering_pagination
    [sampleTx 1 "user_A" 100, sampleTx 2 "user_A" 300,
     sampleTx 3 "user_A" 200, sampleTx 4 "user_B" 400]
    "user_A" 2 1 none none
    { user_id := "user_A",
      transactions :=
        [format_transaction (sampleTx 3 "user_A" 200),
         format_transaction (sampleTx 1 "user_A" 100)],
      count := 2, total := 3 }
    (by norm_num) hres
  exact hmain.1

/-- C7: every successful `convert_currency` computes the target amount as
`amount * rate` in exact decimal arithmetic, persists exactly one transaction
row whose identifier is assigned by the store, and returns that row's id,
the user id, both currency/amount legs, the rate and a timestamp equal to
the persisted row's timestamp. -/
theorem convert_currency_success_persists (st : ConvState) (now : ℤ)
    (fetchResult : Option Rates) (user_id from_currency to_currency : String)
    (amount : Decimal) (res : ConversionResult) (st' : ConvState)
    (h : convert_currency st now fetchResult user_id from_currency to_currency amount
      = (Except.ok res, st')) :
    ∃ tx : Transaction,
      st'.transactions = st.transactions ++ [tx] ∧
      tx.id = st.transactions.length + 1 ∧
      res.transaction_id = tx.id ∧
      res.user_id = user_id ∧ tx.user_id = user_id ∧
      res.from_currency = from_currency ∧ res.from_amount = amount ∧
      res.to_currency = to_currency ∧
      res.to_amount = amount * res.rate ∧
      tx.source_currency = from_currency ∧ tx.source_amount = amount ∧
      tx.target_currency = to_currency ∧ tx.target_amount = res.to_amount ∧
      tx.exchange_rate = res.rate ∧
      res.timestamp = tx.timestamp := by
  by_cases ha : amount ≤ 0
  · simp [convert_currency, ha] at h
  · rw [convert_currency, if_neg ha] at h
    rcases hg : get_exchange_rate st.rateState now fetchResult from_currency to_currency
      with ⟨r, rs'⟩
    rw [hg] at h
    cases r with
    | error e => simp at h
    | ok rate =>
        simp only [Prod.mk.injEq, Except.ok.injEq] at h
        refine ⟨⟨st.transactions.length + 1, user_id, from_currency, to_currency,
          amount, amount * rate, rate, now⟩, ?_⟩
        rw [← h.2, ← h.1]
        simp

/-- Witness for C7: converting 100 EUR to USD against the fixture snapshot
persists one row and returns `to_amount = 100 * 1.18`. -/
theorem convert_currency_success_persists_witness :
    ∃ tx : Transaction,
      ([sampleTx 1 "user_A" 10] ++
            [⟨2, "user_A", "EUR", "USD", 100, 100 * 1.18, 1.18, 50⟩]
          : List Transaction)
          = [sampleTx 1 "user_A" 10] ++ [tx] ∧
      tx.id = [sampleTx 1 "user_A" 10].length + 1 ∧
      (2 : ℕ) = tx.id ∧
      "user_A" = "user_A" ∧ tx.user_id = "user_A" ∧
      "EUR" = "EUR" ∧ (100 : ℚ) = 100 ∧
      "USD" = "USD" ∧
      (100 * 1.18 : ℚ) = 100 * 1.18 ∧
      tx.source_currency = "EUR" ∧ tx.source_amount = 100 ∧
      tx.target_currency = "USD" ∧ tx.target_amount = 100 * 1.18 ∧
      tx.exchange_rate = 1.18 ∧
      (50 : ℤ) = tx.timestamp :=
  convert_currency_success_persists
    ⟨⟨some ⟨mock_rates, 50 + EXCHANGE_RATE_CACHE_TTL⟩, [], 1⟩, [sampleTx 1 "user_A" 10]⟩
    50 none "user_A" "EUR" "USD" 100
    ⟨2, "user_A", "EUR", 100, "USD", 100 * 1.18, 1.18, 50⟩
    ⟨⟨some ⟨mock_rates, 50 + EXCHANGE_RATE_CACHE_TTL⟩, [], 1⟩,
      [sampleTx 1 "user_A" 10] ++
        [⟨2, "user_A", "EUR", "USD", 100, 100 * 1.18, 1.18, 50⟩]⟩
    (by simp [convert_currency, get_exchange_rate, getRates, SUPPORTED_CURRENCIES,
      deriveRate, ratesGet, mock_rates, List.lookup, EXCHANGE_RATE_BASE_CURRENCY,
      EXCHANGE_RATE_CACHE_TTL])

/-- C9: inverse consistency of the pairwise-rate derivation. For a snapshot
whose base-currency entry is 1 (the spec's `RateSnapshot` invariant) and
whose entries for the two supported currencies are present and nonzero, the
two opposite derived rates multiply to exactly 1, so the target amount
`amount * rate(from, to)` of a conversion equals `amount / rate(to, from)` —
exactly, hence within any rounding tolerance. -/
theorem deriveRate_inverse_consistency (rates : Rates)
    (from_currency to_currency : String) (rf rt r1 r2 amount : Decimal)
    (hf : rates.lookup from_currency = some rf) (hrf : rf ≠ 0)
    (ht : rates.lookup to_currency = some rt) (hrt : rt ≠ 0)
    (hbase : rates.lookup EXCHANGE_RATE_BASE_CURRENCY = some 1)
    (_hamount : 0 < amount)
    (h1 : deriveRate rates from_currency to_currency = Except.ok r1)
    (h2 : deriveRate rates to_currency from_currency = Except.ok r2) :
    r1 * r2 = 1 ∧ amount * r1 = amount / r2 := by
  have hmul : r1 * r2 = 1 := by
    by_cases hfb : from_currency = EXCHANGE_RATE_BASE_CURRENCY
    · have hrf1 : rf = 1 := by
        rw [hfb] at hf; rw [hf] at hbase; exact Option.some.inj hbase
      by_cases htb : to_currency = EXCHANGE_RATE_BASE_CURRENCY
      · have hrt1 : rt = 1 := by
          rw [htb] at ht; rw [ht] at hbase; exact Option.some.inj hbase
        rw [hfb, htb] at h1 h2
        simp [deriveRate, ratesGet, hbase] at h1 h2
        rw [← h1, ← h2]; norm_num
      · rw [hfb] at h1 h2
        simp [deriveRate, ratesGet, ht, htb, decDiv, hrt] at h1 h2
        rw [← h1, ← h2]
        field_simp
    · by_cases htb : to_currency = EXCHANGE_RATE_BASE_CURRENCY
      · rw [htb] at h1 h2
        simp [deriveRate, ratesGet, hf, hfb, htb ▸ ht, decDiv, hrf] at h1 h2
        rw [← h1, ← h2]
        field_simp
      · simp [deriveRate, ratesGet, hf, ht, hfb, htb, decDiv, hrf, hrt] at h1 h2
        rw [← h1, ← h2]
        field_simp
  refine ⟨hmul, ?_⟩
  have hr2 : r2 ≠ 0 := by
    intro hz
    rw [hz, mul_zero] at hmul
    exact zero_ne_one hmul
  rw [eq_div_iff hr2, mul_assoc, hmul, mul_one]

/-- Witness for C9 at the spec's scenario: USD → EUR and EUR → USD over the
fixture snapshot give rates `1 / 1.18` and `1.18`, whose product is 1, and
`100 * (1 / 1.18) = 100 / 1.18`. -/
theorem deriveRate_inverse_consistency_witness :
    (1 / 1.18 : ℚ) * 1.18 = 1 ∧ (100 : ℚ) * (1 / 1.18) = 100 / 1.18 :=
  deriveRate_inverse_consistency mock_rates "USD" "EUR" 1.18 1 (1 / 1.18) 1.18 100
    (by simp [mock_rates, List.lookup]) (by norm_num)
    (by simp [mock_rates, List.lookup]) (by norm_num)
    (by simp [mock_rates, List.lookup, EXCHANGE_RATE_BASE_CURRENCY]) (by norm_num)
    (by simp [deriveRate, ratesGet, mock_rates, List.lookup,
      EXCHANGE_RATE_BASE_CURRENCY, decDiv]; norm_num)
    (by simp [deriveRate, ratesGet, mock_rates, List.lookup,
      EXCHANGE_RATE_BASE_CURRENCY, decDiv])

/-- C10: after both codes pass currency validation, `get_exchange_rate`
indexes the resolved snapshot and divides by the from-currency rate without
any guard. With a fresh cached snapshot: the result is exactly the unguarded
derivation; it succeeds whenever both entries are present and the
from-currency rate is nonzero; a snapshot missing the to-currency entry
fails with a raw `KeyError`, and a zero from-currency rate fails with a raw
`DivisionByZero`; and any failure of the derivation is one of these raw
errors, never an error of the spec's taxonomy. -/
theorem get_exchange_rate_unguarded_lookup (rates : Rates)
    (from_currency to_currency : String) (expiry now : ℤ)
    (backups : List ExchangeRate) (n : ℕ)
    (hfs : from_currency ∈ SUPPORTED_CURRENCIES)
    (hts : to_currency ∈ SUPPORTED_CURRENCIES)
    (hfresh : now < expiry) :
    ((get_exchange_rate ⟨some ⟨rates, expiry⟩, backups, n⟩ now none
        from_currency to_currency).1
      = deriveRate rates from_currency to_currency) ∧
    (∀ rf rt, rates.lookup from_currency = some rf → rf ≠ 0 →
       rates.lookup to_currency = some rt →
       ∃ r, deriveRate rates from_currency to_currency = Except.ok r) ∧
    (to_currency ≠ EXCHANGE_RATE_BASE_CURRENCY →
       rates.lookup to_currency = none →
       deriveRate rates from_currency to_currency
         = Except.error (PyError.keyError to_currency)) ∧
    (from_currency ≠ EXCHANGE_RATE_BASE_CURRENCY →
       rates.lookup from_currency = some 0 →
       (to_currency = EXCHANGE_RATE_BASE_CURRENCY ∨
         ∃ rt, rates.lookup to_currency = some rt) →
       deriveRate rates from_currency to_currency
         = Except.error PyError.divisionByZero) ∧
    (∀ e, deriveRate rates from_currency to_currency = Except.error e →
       (∃ k, e = PyError.keyError k) ∨ e = PyError.divisionByZero) := by
  refine ⟨?_, ?_, ?_, ?_, ?_⟩
  · simp [get_exchange_rate, hfs, hts, getRates, hfresh]
  · intro rf rt hf hrf ht
    by_cases hfb : from_currency = EXCHANGE_RATE_BASE_CURRENCY
    · exact ⟨rt, by simp [deriveRate, hfb, ratesGet, ht]⟩
    · by_cases htb : to_currency = EXCHANGE_RATE_BASE_CURRENCY
      · exact ⟨1 / rf, by simp [deriveRate, hfb, htb, ratesGet, hf, decDiv, hrf]⟩
      · exact ⟨rt / rf, by simp [deriveRate, hfb, htb, ratesGet, hf, ht, decDiv, hrf]⟩
  · intro htb ht
    by_cases hfb : from_currency = EXCHANGE_RATE_BASE_CURRENCY
    · simp [deriveRate, hfb, ratesGet, ht]
    · simp [deriveRate, hfb, htb, ratesGet, ht]
  · intro hfb hf hto
    by_cases htb : to_currency = EXCHANGE_RATE_BASE_CURRENCY
    · simp [deriveRate, hfb, htb, ratesGet, hf, decDiv]
    · rcases hto with htb' | ⟨rt, ht⟩
      · exact absurd htb' htb
      · simp [deriveRate, hfb, htb, ratesGet, hf, ht, decDiv]
  · intro e he
    by_cases hfb : from_currency = EXCHANGE_RATE_BASE_CURRENCY
    · rcases hlt : rates.lookup to_currency with - | vt
      · simp [deriveRate, hfb, ratesGet, hlt] at he
        exact Or.inl ⟨to_currency, he.symm⟩
      · simp [deriveRate, hfb, ratesGet, hlt] at he
    · by_cases htb : to_currency = EXCHANGE_RATE_BASE_CURRENCY
      · rcases hlf : rates.lookup from_currency with - | vf
        · simp [deriveRate, hfb, htb, ratesGet, hlf] at he
          exact Or.inl ⟨from_currency, he.symm⟩
        · by_cases hv : vf = 0
          · simp [deriveRate, hfb, htb, ratesGet, hlf, decDiv, hv] at he
            exact Or.inr he.symm
          · simp [deriveRate, hfb, htb, ratesGet, hlf, decDiv, hv] at he
      · rcases hlt : rates.lookup to_currency with - | vt
        · simp [deriveRate, hfb, htb, ratesGet, hlt] at he
          exact Or.inl ⟨to_currency, he.symm⟩
        · rcases hlf : rates.lookup from_currency with - | vf
          · simp [deriveRate, hfb, htb, ratesGet, hlt, hlf] at he
            exact Or.inl ⟨from_currency, he.symm⟩
          · by_cases hv : vf = 0
            · simp [deriveRate, hfb, htb, ratesGet, hlt, hlf, decDiv, hv] at he
              exact Or.inr he.symm
            · simp [deriveRate, hfb, htb, ratesGet, hlt, hlf, decDiv, hv] at he

/-- Witness for C10 at the fixture snapshot held fresh in the cache, pair
USD → EUR (both validated). -/
theorem get_exchange_rate_unguarded_lookup_witness :
    ((get_exchange_rate ⟨some ⟨mock_rates, 100⟩, [], 0⟩ 50 none "USD" "EUR").1
      = deriveRate mock_rates "USD" "EUR") ∧
    (∀ rf rt, mock_rates.lookup "USD" = some rf → rf ≠ 0 →
       mock_rates.lookup "EUR" = some rt →
       ∃ r, deriveRate mock_rates "USD" "EUR" = Except.ok r) ∧
    ("EUR" ≠ EXCHANGE_RATE_BASE_CURRENCY → mock_rates.lookup "EUR" = none →
       deriveRate mock_rates "USD" "EUR" = Except.error (PyError.keyError "EUR")) ∧
    ("USD" ≠ EXCHANGE_RATE_BASE_CURRENCY → mock_rates.lookup "USD" = some 0 →
       ("EUR" = EXCHANGE_RATE_BASE_CURRENCY ∨
         ∃ rt, mock_rates.lookup "EUR" = some rt) →
       deriveRate mock_rates "USD" "EUR" = Except.error PyError.divisionByZero) ∧
    (∀ e, deriveRate mock_rates "USD" "EUR" = Except.error e →
       (∃ k, e = PyError.keyError k) ∨ e = PyError.divisionByZero) :=
  get_exchange_rate_unguarded_lookup mock_rates "USD" "EUR" 100 50 [] 0
    (by simp [SUPPORTED_CURRENCIES]) (by simp [SUPPORTED_CURRENCIES]) (by norm_num)

end CurrencyExchange
